/-
Verification of the `aio_rest_server` routing and dispatch core.

This file gives a shallow embedding, in Lean 4, of the Router trie and of
the request-dispatch protocol of `aio_rest_server/aio_rest_server.py`, and
proves (or refutes) the specified properties of that code.

Modelling conventions:
  * Python `dict` values are embedded as insertion-ordered association
    lists (`List (String × α)`): lookup returns the value of the first
    matching key, update replaces in place, and a fresh key is appended
    at the end — exactly the observable behaviour of a Python dict.
  * `str.split('/')` is embedded by `splitSlash` on the character list of
    the string (Python's split with an explicit separator keeps empty
    pieces and returns `[""]` on the empty string, as `splitSlash` does).
  * Exceptions are embedded with `Except String`: `ValueError(msg)`
    becomes `.error msg`.  (In `set_handler_for_path` the duplicate error
    can only fire when the whole pattern path already existed in the trie,
    so no intermediate nodes were vivified and the rollback-free `Except`
    embedding agrees with the mutating Python code.)
  * The transport layer (aiohttp), URL parsing and JSON serialization are
    external collaborators; they appear only at their interfaces (the
    parsed query list, the serialized body string).
-/
import Mathlib

set_option autoImplicit false

namespace AioRest

/-! # Definitions -/

/-! ## Association lists: the embedding of Python `dict` -/

/-- First-match lookup, i.e. Python `d[k]` / `d.get(k)` when the key is
present, `none` when it would raise / return `None`. -/
def alookup {α : Type} : List (String × α) → String → Option α
  | [], _ => none
  | (k, v) :: rest, key => if k = key then some v else alookup rest key

/-- Python `d[k] = v`: replace the first binding of `k` in place, or append
a fresh binding at the end. -/
def aupdate {α : Type} : List (String × α) → String → α → List (String × α)
  | [], key, v => [(key, v)]
  | (k, w) :: rest, key, v =>
      if k = key then (key, v) :: rest else (k, w) :: aupdate rest key v

/-- Python `d.pop(k)`: remove the first binding of `k`. -/
def aremove {α : Type} : List (String × α) → String → List (String × α)
  | [], _ => []
  | (k, w) :: rest, key => if k = key then rest else (k, w) :: aremove rest key

/-! ## Path splitting

`Router._split_path` does `parts = path.split('/')` and then drops the
last part when it is the empty string.  `splitSlash` is Python's
`split('/')` on the character list. -/

/-- Python `s.split('/')` over the character list of `s`. -/
def splitSlash : List Char → List (List Char)
  | [] => [[]]
  | c :: cs =>
      if c = '/' then [] :: splitSlash cs
      else
        match splitSlash cs with
        | [] => [[c]]
        | s :: ss => (c :: s) :: ss

/-! ## The Router trie

Python's `Router` is a `dict` subclass: the dict contents map a path
segment to the child `Router`, the extra attribute `handlers` maps an HTTP
method to a handler identifier, and the attribute `part` records the
segment under which the node was created (`'root'` for a fresh
`Router()`). -/

/-- One node of the routing trie (= one Python `Router` object). -/
inductive Router where
  | mk (part : String) (children : List (String × Router))
       (handlers : List (String × String))

def Router.part : Router → String
  | .mk p _ _ => p

def Router.children : Router → List (String × Router)
  | .mk _ c _ => c

def Router.handlers : Router → List (String × String)
  | .mk _ _ h => h

/-- `Router()`: a fresh empty node; the class attribute `part` is
`'root'`. -/
def emptyRouter : Router := .mk "root" [] []

/-- Python `part in router` (dict `__contains__`, never vivifies); the
returned `Router` is the dict after the operation — unchanged. -/
def dict_contains (r : Router) (k : String) : Bool × Router :=
  ((alookup r.children k).isSome, r)

/-- Python `router.get(part)` (never vivifies). -/
def dict_get (r : Router) (k : String) : Option Router × Router :=
  (alookup r.children k, r)

/-- Python `router[part]`: on a missing key `__missing__` stores and
returns a fresh child whose `part` attribute is the key. -/
def dict_getitem (r : Router) (k : String) : Router × Router :=
  match alookup r.children k with
  | some c => (c, r)
  | none =>
      let c : Router := .mk k [] []
      (c, .mk r.part (aupdate r.children k c) r.handlers)

/-- `Router._split_path`: split on `'/'` and drop a single trailing empty
segment. -/
def split_path (path : String) : List String :=
  let parts := (splitSlash path.data).map String.mk
  if parts.getLast? = some "" then parts.dropLast else parts

/-- The walk-and-record loop of `Router.set_handler_for_path`, on the
segment list.  `errPath` is the original path string used in the
`ValueError("duplicate path ...")` message. -/
def set_handler_for_parts (errPath m h : String) :
    List String → Router → Except String Router
  | [], r =>
      match alookup r.handlers m with
      | some _ => .error ("duplicate path " ++ errPath)
      | none => .ok (.mk r.part r.children (aupdate r.handlers m h))
  | q :: qs, r =>
      let (child, r') := dict_getitem r q
      match set_handler_for_parts errPath m h qs child with
      | .error e => .error e
      | .ok c' => .ok (.mk r'.part (aupdate r'.children q c') r'.handlers)

/-- `Router.set_handler_for_path(method, path, handler)`. -/
def Router.set_handler_for_path (r : Router) (m path h : String) :
    Except String Router :=
  set_handler_for_parts path m h (split_path path) r

/-- The matching loop of `Router.resolve`, on the segment list: prefer a
literal child (`part in router`), else fall back to the `'$'` child and
capture the segment, else fail. -/
def resolveParts (m : String) : List String → Router → List String →
    Option (String × List String)
  | [], r, args =>
      match alookup r.handlers m with
      | none => none
      | some h => some (h, args)
  | p :: ps, r, args =>
      match alookup r.children p with
      | some c => resolveParts m ps c args
      | none =>
          match alookup r.children "$" with
          | none => none
          | some c => resolveParts m ps c (args ++ [p])

/-- `Router.resolve(method, path)`: `none` stands for the `(None, None)`
failure value. -/
def Router.resolve (r : Router) (m path : String) :
    Option (String × List String) :=
  resolveParts m (split_path path) r []

/-- The state of a router after a successful registration (and unchanged
on a failed one); glue used to build concrete router states in theorem
statements. -/
def registerRoute (m path h : String) (r : Router) : Router :=
  match r.set_handler_for_path m path h with
  | .ok r' => r'
  | .error _ => r

/-- The trie produced by registering a single segment list into an empty
router: a chain of nodes, each created by `__missing__` (so labelled with
its key), with the handler entry at the end. -/
def chainTrie (pt : String) : List String → String → String → Router
  | [], m, h => .mk pt [] [(m, h)]
  | q :: qs, m, h => .mk pt [(q, chainTrie q qs m h)] []

/-! ### The state-instrumented resolver (for the no-mutation property)

`resolveSt` is `Router.resolve` written against the stateful dict
primitives actually used by the source (`in` = `dict_contains`, `.get` =
`dict_get`); the second component of the result is the router tree after
the walk, with every child write-back made explicit (a mutation of a child
object would be visible in its parent).  Had the loop used `router[part]`
(`dict_getitem`), vivification would show up in this component. -/

def resolveSt (m : String) : List String → Router → List String →
    (Option (String × List String)) × Router
  | [], r, args =>
      (match alookup r.handlers m with
       | none => none
       | some h => some (h, args), r)
  | p :: ps, r, args =>
      let (c1, r1) := dict_contains r p
      if c1 then
        let (oc, r2) := dict_get r1 p
        match oc with
        | some c =>
            let (res, c') := resolveSt m ps c args
            (res, .mk r2.part (aupdate r2.children p c') r2.handlers)
        | none => (none, r2)
      else
        let (c2, r1') := dict_contains r1 "$"
        if c2 then
          let (oc, r2) := dict_get r1' "$"
          match oc with
          | some c =>
              let (res, c') := resolveSt m ps c (args ++ [p])
              (res, .mk r2.part (aupdate r2.children "$" c') r2.handlers)
          | none => (none, r2)
        else (none, r1')

/-- `Router.resolve` with the instrumented state: result and final tree. -/
def Router.resolveM (r : Router) (m path : String) :
    (Option (String × List String)) × Router :=
  resolveSt m (split_path path) r []

/-! ## Dispatch: signature binding and `handle_request`

`RESTRequestHandler.handle_request` resolves the route, then binds
`(message, payload, *args, **params)` against the handler's signature
(`inspect.Signature.bind`); a `TypeError` from the bind becomes a 400
response, a missing route a 404, an exception escaping the handler itself
a 500 (via aiohttp's generic error handling), and a normal return a 200.

The binding model covers the parameter kinds the handlers of this code
base use: plain positional-or-keyword parameters (with or without a
default) and an optional final `**kwargs` catch-all.  The bind algorithm
mirrors CPython's `Signature._bind` restricted to those kinds. -/

/-- An argument value passed to a handler: the two transport-supplied
objects, or a string (captured path segment / query value). -/
inductive Val where
  | message
  | payload
  | str (s : String)
deriving DecidableEq, Repr

/-- One declared parameter: its name and its default value, if any. -/
structure Param where
  name : String
  dflt : Option Val
deriving DecidableEq, Repr

/-- A handler's signature: its positional-or-keyword parameters in order,
and the name of a `**kwargs` catch-all when one is declared. -/
structure Sig where
  params : List Param
  varKw : Option String
deriving DecidableEq, Repr

/-- Positional phase of `Signature.bind`: assign `vals` to `params` in
order.  A positional assignment to a parameter whose name also occurs in
`kwargs` raises `multiple values`; more positional values than parameters
raises `too many positional arguments`.  Returns the parameters left for
the keyword phase and the accumulated assignments. -/
def bindPos : List Param → List Val → List (String × Val) →
    List (String × Val) → Except String (List Param × List (String × Val))
  | ps, [], _, acc => .ok (ps, acc)
  | [], _ :: _, _, _ => .error "too many positional arguments"
  | p :: ps, v :: vs, kwargs, acc =>
      if (alookup kwargs p.name).isSome then
        .error ("multiple values for argument " ++ p.name)
      else bindPos ps vs kwargs (acc ++ [(p.name, v)])

/-- Keyword phase of `Signature.bind`: fill each remaining parameter from
`kwargs` (consuming the entry) or from its default; a parameter with
neither raises `missing a required argument`.  Returns the assignments and
the unconsumed keyword arguments. -/
def bindKw : List Param → List (String × Val) → List (String × Val) →
    Except String (List (String × Val) × List (String × Val))
  | [], kwargs, acc => .ok (acc, kwargs)
  | p :: ps, kwargs, acc =>
      match alookup kwargs p.name with
      | some v => bindKw ps (aremove kwargs p.name) (acc ++ [(p.name, v)])
      | none =>
          match p.dflt with
          | some d => bindKw ps kwargs (acc ++ [(p.name, d)])
          | none => .error ("missing a required argument: " ++ p.name)

/-- `Signature.bind(*vals, **kwargs)`: positional phase, keyword phase,
then leftover keyword arguments either flow into the `**kwargs` catch-all
or raise `unexpected keyword argument`. -/
def Sig.bindCall (sig : Sig) (vals : List Val) (kwargs : List (String × Val)) :
    Except String (List (String × Val)) :=
  match bindPos sig.params vals kwargs [] with
  | .error e => .error e
  | .ok (rest, posBound) =>
      match bindKw rest kwargs [] with
      | .error e => .error e
      | .ok (kwBound, leftover) =>
          if leftover.isEmpty then .ok (posBound ++ kwBound)
          else
            match sig.varKw with
            | some _ => .ok (posBound ++ kwBound ++ leftover)
            | none =>
                .error ("got an unexpected keyword argument "
                  ++ (leftover.head?.map Prod.fst).getD "")

/-- Outcome of one request: the HTTP status of the single response
produced, and how many times the resolved handler body ran. -/
structure ReqResult where
  status : Nat
  invocations : Nat
deriving DecidableEq, Repr

/-- `RESTRequestHandler.handle_request`, observed as (status, handler
invocation count).  `sigOf` gives each handler's signature (Python
`inspect.signature` on the bound method), `run` is the handler body
(`.error` models an exception escaping the handler), `query` is the query
string already parsed to key/value pairs (`parse_qsl`, an external
collaborator). -/
def handle_request (r : Router) (sigOf : String → Sig)
    (run : String → List (String × Val) → Except String String)
    (method path : String) (query : List (String × String)) : ReqResult :=
  match r.resolve method path with
  | none => ⟨404, 0⟩
  | some (h, args) =>
      match (sigOf h).bindCall ([Val.message, Val.payload] ++ args.map Val.str)
          (query.map fun kv => (kv.1, Val.str kv.2)) with
      | .error _ => ⟨400, 0⟩
      | .ok bound =>
          match run h bound with
          | .error _ => ⟨500, 1⟩
          | .ok _ => ⟨200, 1⟩

/-! ## Response shaping

`_send_data` (success path) and `handle_error` (error path).  The body is
the UTF-8 encoding of a string; `len(body)` is its UTF-8 byte count.  The
JSON serializer is an external collaborator: responses are shaped from the
already-serialized string. -/

/-- An HTTP response as far as this layer shapes it: status, the headers
added in order, and the body string (sent UTF-8 encoded). -/
structure HttpResponse where
  status : Nat
  headers : List (String × String)
  body : String
deriving DecidableEq, Repr

/-- `RESTRequestHandler._send_data` applied to the fresh 200 response
created by `handle_request`: add `Content-Type` and `Content-Length`,
write the serialized body. -/
def send_data (dataStr : String) : HttpResponse :=
  { status := 200
    headers := [("Content-Type", "application/json"),
                ("Content-Length", toString dataStr.utf8ByteSize)]
    body := dataStr }

/-- The body `handle_error` writes: empty unless debug mode is on and an
exception object was passed, in which case it is the serialization of
`{'result': 'error', 'data': msg}` (`errJson` models that fixed-shape
`json.dumps`; `msg` stands for the already-escaped message text). -/
def errJson (msg : String) : String :=
  "\x7b\"result\": \"error\", \"data\": \"" ++ msg ++ "\"\x7d"

/-- `RESTRequestHandler.handle_error` (transport present): the response
carries the given status, the JSON content-type with charset, a
`Content-Length` computed from the body it writes, then any caller-passed
extra headers.  (The `RESPONSES` reason-phrase lookup and logging are
external collaborators and do not affect headers or body.) -/
def handle_error (status : Nat) (dbg excPresent : Bool) (msg : String)
    (extraHeaders : List (String × String)) : HttpResponse :=
  let body := if dbg && excPresent then errJson msg else ""
  { status := status
    headers := [("Content-Type", "application/json; charset=utf-8"),
                ("Content-Length", toString body.utf8ByteSize)]
               ++ extraHeaders
    body := body }

/-! ## Pattern substitution (the spec's notion of a concrete path)

The spec speaks of "the concrete path obtained from a pattern by
substituting literal strings at the wildcard positions"; `substWildcards`
realizes that on segment lists, and `wildcardCount` counts the capture
positions. -/

/-- Replace each `"$"` segment by the next substitution string. -/
def substWildcards : List String → List String → List String
  | [], _ => []
  | q :: qs, subs =>
      if q = "$" then
        match subs with
        | [] => q :: substWildcards qs []
        | s :: ss => s :: substWildcards qs ss
      else q :: substWildcards qs subs

/-- Number of wildcard (`"$"`) segments of a pattern. -/
def wildcardCount (parts : List String) : Nat :=
  (parts.filter (fun q => q = "$")).length

/-! ## Concrete fixtures used in claim instances and witnesses -/

/-- Router with `GET /foo → foo` (the spec's `test_params` shape). -/
def demoRouterFoo : Router := registerRoute "GET" "/foo" "foo" emptyRouter

/-- Router with `GET /items/$ → get_item`. -/
def demoRouterItems : Router :=
  registerRoute "GET" "/items/$" "get_item" emptyRouter

/-- Router with both `GET /a/b → hb` and `GET /a/$ → hw`. -/
def demoRouterAB : Router :=
  registerRoute "GET" "/a/$" "hw" (registerRoute "GET" "/a/b" "hb" emptyRouter)

/-- Signature of a handler `(self, message, payload)` — no query
parameters declared, no catch-all. -/
def demoSigNoParams : Sig :=
  ⟨[⟨"message", none⟩, ⟨"payload", none⟩], none⟩

/-- Signature of a handler `(self, message, payload, item)`. -/
def demoSigItem : Sig :=
  ⟨[⟨"message", none⟩, ⟨"payload", none⟩, ⟨"item", none⟩], none⟩

/-- A handler body that returns normally. -/
def demoRunOk : String → List (String × Val) → Except String String :=
  fun _ _ => .ok "null"

/-- A handler body that raises (e.g. the `TypeError` of
`test_typeerror_inside_route_handler_function`). -/
def demoRunRaise : String → List (String × Val) → Except String String :=
  fun _ _ => .error "TypeError: unexpected keyword argument badparam"

/-! # Helper lemmas -/

theorem alookup_aupdate_self {α : Type} (l : List (String × α)) (k : String)
    (v : α) : alookup (aupdate l k v) k = some v := by
  induction l with
  | nil => simp [alookup, aupdate]
  | cons p rest ih =>
      obtain ⟨k', w⟩ := p
      by_cases h : k' = k <;> simp [alookup, aupdate, h, ih]

theorem aupdate_self {α : Type} (l : List (String × α)) (k : String) (v : α)
    (h : alookup l k = some v) : aupdate l k v = l := by
  induction l with
  | nil => simp [alookup] at h
  | cons p rest ih =>
      obtain ⟨k', w⟩ := p
      by_cases hk : k' = k
      · subst hk
        simp [alookup] at h
        simp [aupdate, h]
      · simp [alookup, hk] at h
        simp [aupdate, hk, ih h]

theorem splitSlash_ne_nil (cs : List Char) : splitSlash cs ≠ [] := by
  cases cs with
  | nil => simp [splitSlash]
  | cons c cs =>
      by_cases h : c = '/'
      · simp [splitSlash, h]
      · simp only [splitSlash, h, if_false]
        cases splitSlash cs <;> simp

theorem splitSlash_append_slash (cs : List Char) :
    splitSlash (cs ++ ['/']) = splitSlash cs ++ [[]] := by
  induction cs with
  | nil => simp [splitSlash]
  | cons c cs ih =>
      by_cases h : c = '/'
      · simp [splitSlash, h, ih]
      · simp only [List.cons_append, splitSlash, h, if_false, List.append_eq]
        rw [ih]
        cases hs : splitSlash cs with
        | nil => exact absurd hs (splitSlash_ne_nil cs)
        | cons s ss => simp

/-- If `cs` is non-empty and does not end in `'/'`, the last piece of
`splitSlash cs` is non-empty. -/
theorem splitSlash_getLast_ne_nil (cs : List Char) (h0 : cs ≠ [])
    (h1 : cs.getLast? ≠ some '/') : (splitSlash cs).getLast? ≠ some [] := by
  induction cs with
  | nil => exact absurd rfl h0
  | cons c cs ih =>
      cases cs with
      | nil =>
          have hc : c ≠ '/' := by
            intro h; exact h1 (by simp [h])
          simp [splitSlash, hc]
      | cons d ds =>
          have hlast : (d :: ds).getLast? ≠ some '/' := by
            simpa [List.getLast?_cons_cons] using h1
          have ihr := ih (by simp) hlast
          have hdef : splitSlash (c :: d :: ds) =
              if c = '/' then [] :: splitSlash (d :: ds)
              else match splitSlash (d :: ds) with
                   | [] => [[c]]
                   | s :: ss => (c :: s) :: ss := rfl
          cases hs : splitSlash (d :: ds) with
          | nil => exact absurd hs (splitSlash_ne_nil _)
          | cons s ss =>
              rw [hs] at ihr hdef
              rw [hdef]
              by_cases h : c = '/'
              · simpa [h] using ihr
              · cases ss with
                | nil => simp [h]
                | cons t ts => simpa [h] using ihr

/-- Registering any segment list into a fresh node always succeeds and
builds the corresponding chain trie. -/
theorem set_parts_empty (parts : List String) (pt m h errP : String) :
    set_handler_for_parts errP m h parts (Router.mk pt [] []) =
      .ok (chainTrie pt parts m h) := by
  induction parts generalizing pt with
  | nil => simp [set_handler_for_parts, alookup, aupdate, chainTrie,
      Router.part, Router.children, Router.handlers]
  | cons q qs ih =>
      simp [set_handler_for_parts, dict_getitem, alookup, aupdate, chainTrie,
        Router.part, Router.children, Router.handlers, ih q]

/-- Resolving, through a single-pattern chain trie, the segments obtained
by substituting non-wildcard strings at the wildcard positions finds the
handler and captures exactly the substituted strings. -/
theorem resolve_chainTrie (parts : List String) (subs : List String)
    (pt m h : String) (acc : List String)
    (hlen : subs.length = wildcardCount parts)
    (hsub : ∀ s ∈ subs, s ≠ "$") :
    resolveParts m (substWildcards parts subs) (chainTrie pt parts m h) acc =
      some (h, acc ++ subs) := by
  induction parts generalizing subs pt acc with
  | nil =>
      have hnil : subs = [] := by
        simpa [wildcardCount] using hlen
      subst hnil
      simp [substWildcards, resolveParts, chainTrie, alookup,
        Router.handlers]
  | cons q qs ih =>
      by_cases hq : q = "$"
      · subst hq
        cases subs with
        | nil => simp [wildcardCount] at hlen
        | cons s ss =>
            have hs : s ≠ "$" := hsub s (by simp)
            have hs' : ("$" : String) ≠ s := Ne.symm hs
            have hlen' : ss.length = wildcardCount qs := by
              simpa [wildcardCount] using hlen
            have hsub' : ∀ x ∈ ss, x ≠ "$" := fun x hx => hsub x (by simp [hx])
            simp [substWildcards, resolveParts, chainTrie, alookup,
              Router.children, hs',
              ih ss "$" (acc ++ [s]) hlen' hsub']
      · have hlen' : subs.length = wildcardCount qs := by
          simpa [wildcardCount, hq] using hlen
        simp only [substWildcards, hq, if_false]
        simp [resolveParts, chainTrie, alookup, Router.children,
          ih subs q acc hlen' hsub]

/-- Re-registering the same segment list (any handler, any error path)
after a successful registration fails with the duplicate error. -/
theorem set_parts_dup (parts : List String) (r r' : Router)
    (e1 e2 m h h2 : String)
    (hok : set_handler_for_parts e1 m h parts r = .ok r') :
    set_handler_for_parts e2 m h2 parts r' =
      .error ("duplicate path " ++ e2) := by
  induction parts generalizing r r' with
  | nil =>
      cases hl : alookup r.handlers m with
      | some v => simp [set_handler_for_parts, hl] at hok
      | none =>
          simp [set_handler_for_parts, hl] at hok
          subst hok
          simp [set_handler_for_parts, Router.handlers,
            alookup_aupdate_self]
  | cons q qs ih =>
      rcases hdg : dict_getitem r q with ⟨child, rr⟩
      simp only [set_handler_for_parts, hdg] at hok ⊢
      cases hrec : set_handler_for_parts e1 m h qs child with
      | error e => simp [hrec] at hok
      | ok c' =>
          simp only [hrec] at hok
          have hok' :
              Router.mk rr.part (aupdate rr.children q c') rr.handlers
                = r' := by
            exact Except.ok.inj hok
          subst hok'
          have hget :
              dict_getitem (Router.mk rr.part (aupdate rr.children q c')
                rr.handlers) q =
              (c', Router.mk rr.part (aupdate rr.children q c')
                rr.handlers) := by
            simp [dict_getitem, Router.children, alookup_aupdate_self]
          simp [hget, ih child c' hrec]

/-- Registering into a single-pattern chain trie succeeds whenever the
segments or the method differ from the registered ones. -/
theorem set_into_chain_ok (parts2 parts : List String)
    (pt m m2 h h2 e : String)
    (hne : parts2 ≠ parts ∨ m2 ≠ m) :
    ∃ r'', set_handler_for_parts e m2 h2 parts2 (chainTrie pt parts m h) =
      .ok r'' := by
  induction parts2 generalizing parts pt with
  | nil =>
      cases parts with
      | nil =>
          have hm : m2 ≠ m := by
            rcases hne with hne | hne
            · exact absurd rfl hne
            · exact hne
          refine ⟨Router.mk pt [] (aupdate [(m, h)] m2 h2), ?_⟩
          simp [set_handler_for_parts, chainTrie, alookup, Router.handlers,
            Router.children, Router.part, Ne.symm hm]
      | cons q qs =>
          refine ⟨Router.mk pt [(q, chainTrie q qs m h)] [(m2, h2)], ?_⟩
          simp [set_handler_for_parts, chainTrie, alookup, Router.handlers,
            Router.children, Router.part, aupdate]
  | cons q2 qs2 ih =>
      cases parts with
      | nil =>
          refine ⟨Router.mk pt [(q2, chainTrie q2 qs2 m2 h2)] [(m, h)], ?_⟩
          simp [set_handler_for_parts, chainTrie, dict_getitem, alookup,
            Router.children, Router.part, Router.handlers, set_parts_empty,
            aupdate]
      | cons q qs =>
          by_cases hqq : q2 = q
          · subst hqq
            have hne' : qs2 ≠ qs ∨ m2 ≠ m := by
              rcases hne with hne | hne
              · exact Or.inl (fun hh => hne (by simp [hh]))
              · exact Or.inr hne
            obtain ⟨c', hc'⟩ := ih qs q2 hne'
            refine ⟨Router.mk pt [(q2, c')] [], ?_⟩
            simp [set_handler_for_parts, chainTrie, dict_getitem, alookup,
              Router.children, Router.part, Router.handlers, hc', aupdate]
          · have hqq' : q ≠ q2 := Ne.symm hqq
            refine ⟨Router.mk pt
              [(q, chainTrie q qs m h), (q2, chainTrie q2 qs2 m2 h2)] [], ?_⟩
            simp [set_handler_for_parts, chainTrie, dict_getitem, alookup,
              Router.children, Router.part, Router.handlers, hqq',
              set_parts_empty, aupdate]

/-- The error-path string passed to `set_handler_for_parts` only affects
the error message, never whether registration succeeds or what state it
produces. -/
theorem set_parts_toOption (parts : List String) (e1 e2 m h : String)
    (r : Router) :
    (set_handler_for_parts e1 m h parts r).toOption =
      (set_handler_for_parts e2 m h parts r).toOption := by
  induction parts generalizing r with
  | nil =>
      cases hl : alookup r.handlers m <;>
        simp [set_handler_for_parts, hl, Except.toOption]
  | cons q qs ih =>
      have hio := ih (dict_getitem r q).1
      cases h1 : set_handler_for_parts e1 m h qs (dict_getitem r q).1 with
      | error a =>
          cases h2 : set_handler_for_parts e2 m h qs (dict_getitem r q).1 with
          | error b => simp [set_handler_for_parts, h1, h2, Except.toOption]
          | ok c => rw [h1, h2] at hio; simp [Except.toOption] at hio
      | ok c =>
          cases h2 : set_handler_for_parts e2 m h qs (dict_getitem r q).1 with
          | error b => rw [h1, h2] at hio; simp [Except.toOption] at hio
          | ok c2 =>
              rw [h1, h2] at hio
              simp [Except.toOption] at hio
              subst hio
              simp [set_handler_for_parts, h1, h2, Except.toOption]

/-- Appending one `'/'` to a non-empty path that does not already end in
`'/'` does not change its segment split. -/
theorem split_path_append_slash (p : String) (h0 : p.data ≠ [])
    (h1 : p.data.getLast? ≠ some '/') :
    split_path (p ++ "/") = split_path p := by
  have hdata : (p ++ "/").data = p.data ++ ['/'] := by
    simp [String.data_append]
  have hsplit : splitSlash (p ++ "/").data = splitSlash p.data ++ [[]] := by
    rw [hdata, splitSlash_append_slash]
  have hlast : ((splitSlash p.data).map String.mk).getLast? ≠ some "" := by
    rw [List.getLast?_map]
    intro hcon
    cases hgl : (splitSlash p.data).getLast? with
    | none => simp [hgl] at hcon
    | some l =>
        rw [hgl] at hcon
        have hl : String.mk l = "" := by simpa using hcon
        have hnil : l = [] := by simpa [String.ext_iff] using hl
        exact splitSlash_getLast_ne_nil p.data h0 h1 (by simp [hgl, hnil])
  simp only [split_path]
  rw [if_neg hlast, hsplit]
  simp only [List.map_append, List.map_cons, List.map_nil]
  have hmk : String.mk [] = "" := rfl
  rw [hmk, List.getLast?_concat, if_pos rfl, List.dropLast_concat]

/-- The instrumented resolver computes the same result as `resolveParts`
and leaves the tree untouched. -/
theorem resolveSt_eq (parts : List String) (m : String) (r : Router)
    (args : List String) :
    resolveSt m parts r args = (resolveParts m parts r args, r) := by
  induction parts generalizing r args with
  | nil => simp [resolveSt, resolveParts]
  | cons p ps ih =>
      cases hc : alookup r.children p with
      | some c =>
          have heta : Router.mk r.part r.children r.handlers = r := by
            cases r; rfl
          simp [resolveSt, resolveParts, dict_contains, dict_get, hc, ih,
            aupdate_self r.children p c hc, heta]
      | none =>
          cases hw : alookup r.children "$" with
          | some c =>
              have heta : Router.mk r.part r.children r.handlers = r := by
                cases r; rfl
              simp [resolveSt, resolveParts, dict_contains, dict_get, hc, hw,
                ih, aupdate_self r.children "$" c hw, heta]
          | none =>
              simp [resolveSt, resolveParts, dict_contains, dict_get, hc, hw]

/-- A positional assignment to a parameter whose name also arrives as a
keyword argument makes the positional phase of the bind fail. -/
theorem bindPos_conflict (j : Nat) (params : List Param) (vals : List Val)
    (kwargs acc : List (String × Val)) (pj : Param)
    (hj : j < vals.length) (hp : params[j]? = some pj)
    (hk : (alookup kwargs pj.name).isSome) :
    ∃ e, bindPos params vals kwargs acc = .error e := by
  induction j generalizing params vals acc with
  | zero =>
      cases params with
      | nil => simp at hp
      | cons p0 ps =>
          cases vals with
          | nil => simp at hj
          | cons v vs =>
              have hp0 : p0 = pj := by simpa using hp
              have hk0 : (alookup kwargs p0.name).isSome := hp0 ▸ hk
              exact ⟨"multiple values for argument " ++ p0.name,
                by simp [bindPos, hk0]⟩
  | succ j ih =>
      cases params with
      | nil => simp at hp
      | cons p0 ps =>
          cases vals with
          | nil => simp at hj
          | cons v vs =>
              by_cases h0 : (alookup kwargs p0.name).isSome
              · exact ⟨"multiple values for argument " ++ p0.name,
                  by simp [bindPos, h0]⟩
              · have hp' : ps[j]? = some pj := by simpa using hp
                have hj' : j < vs.length := by simpa using hj
                obtain ⟨e, he⟩ := ih ps vs (acc ++ [(p0.name, v)]) hj' hp'
                exact ⟨e, by simp [bindPos, h0, he]⟩

/-- A failing positional phase fails the whole bind. -/
theorem bindCall_error_of_bindPos (sig : Sig) (vals : List Val)
    (kwargs : List (String × Val)) (e : String)
    (h : bindPos sig.params vals kwargs [] = .error e) :
    sig.bindCall vals kwargs = .error e := by
  simp [Sig.bindCall, h]

/-! # The claims -/

/-- C1, the claim as stated, is false: substituting the non-empty literal
string `"$"` at the wildcard position of the registered pattern `/a/$`
yields the concrete path `/a/$`, and resolving it returns the handler with
NO captured arguments (the `'$'` segment matches the wildcard child as a
literal key), instead of the substituted strings `["$"]`. -/
theorem c1_claim_counterexample :
    substWildcards (split_path "/a/$") ["$"] = split_path "/a/$" ∧
    ("$" : String) ≠ "" ∧
    (registerRoute "GET" "/a/$" "h" emptyRouter).resolve "GET" "/a/$"
      = some ("h", []) ∧
    some ("h", ([] : List String)) ≠ some ("h", ["$"]) := by
  refine ⟨by decide, by decide, by decide, by decide⟩

/-- C1 (amended): for a pattern registered into an empty router, resolving
with the registered method any concrete path obtained by substituting, at
exactly the wildcard positions, non-empty literal strings that are not
themselves the wildcard marker `"$"`, returns the registered handler
identifier together with the substituted strings in left-to-right
order. -/
theorem c1_resolution_correctness (pat m h cpath : String)
    (subs : List String)
    (hlen : subs.length = wildcardCount (split_path pat))
    (hsub : ∀ s ∈ subs, s ≠ "" ∧ s ≠ "$")
    (hsplit : split_path cpath = substWildcards (split_path pat) subs) :
    (registerRoute m pat h emptyRouter).resolve m cpath = some (h, subs) := by
  have hreg : emptyRouter.set_handler_for_path m pat h
      = .ok (chainTrie "root" (split_path pat) m h) :=
    set_parts_empty (split_path pat) "root" m h pat
  have hrr : registerRoute m pat h emptyRouter
      = chainTrie "root" (split_path pat) m h := by
    simp [registerRoute, hreg]
  rw [hrr, Router.resolve, hsplit]
  simpa using resolve_chainTrie (split_path pat) subs "root" m h []
    hlen (fun s hs => (hsub s hs).2)

/-- C1 witness: the spec's own scenario — pattern `/resource/$/items/$`,
substitutions `foo`, `bar`, concrete path `/resource/foo/items/bar`. -/
theorem c1_resolution_correctness_witness :
    (["foo", "bar"] : List String).length
        = wildcardCount (split_path "/resource/$/items/$") ∧
    split_path "/resource/foo/items/bar"
        = substWildcards (split_path "/resource/$/items/$") ["foo", "bar"] ∧
    (registerRoute "GET" "/resource/$/items/$" "resource_item" emptyRouter).resolve
        "GET" "/resource/foo/items/bar"
      = some ("resource_item", ["foo", "bar"]) := by
  refine ⟨by decide, by decide, ?_⟩
  exact c1_resolution_correctness "/resource/$/items/$" "GET" "resource_item"
    "/resource/foo/items/bar" ["foo", "bar"] (by decide) (by decide) (by decide)

/-- C2: at every node, a matching literal child is preferred — the
resolution step on a segment with a literal child match descends into it
and captures nothing; in particular with both `/a/b` and `/a/$`
registered, `/a/b` resolves to the `/a/b` handler. -/
theorem c2_literal_precedence (r c : Router) (m q : String)
    (ps acc : List String)
    (hq : alookup r.children q = some c) :
    resolveParts m (q :: ps) r acc = resolveParts m ps c acc ∧
    demoRouterAB.resolve "GET" "/a/b" = some ("hb", []) := by
  constructor
  · simp [resolveParts, hq]
  · decide

/-- C2 witness: the literal-step equality at a concrete node. -/
theorem c2_literal_precedence_witness :
    alookup (Router.mk "x" [("b", emptyRouter)] []).children "b"
        = some emptyRouter ∧
    resolveParts "GET" ["b"] (Router.mk "x" [("b", emptyRouter)] []) []
        = resolveParts "GET" [] emptyRouter [] := by
  refine ⟨rfl, ?_⟩
  exact (c2_literal_precedence (Router.mk "x" [("b", emptyRouter)] [])
    emptyRouter "GET" "b" [] [] rfl).1

/-- C3, the claim as stated, is false for the empty path: `""` does not
end in `'/'`, yet after registering the pattern `""` (handler at the
root), resolving `""` succeeds while resolving `"" ++ "/"` fails — a
trailing slash is NOT irrelevant for the empty path, because splitting
`""` gives no segments while splitting `"/"` gives one empty segment. -/
theorem c3_claim_counterexample :
    ("" : String).data.getLast? ≠ some '/' ∧
    (registerRoute "GET" "" "h" emptyRouter).resolve "GET" "" = some ("h", []) ∧
    (registerRoute "GET" "" "h" emptyRouter).resolve "GET" ("" ++ "/")
      = none := by
  refine ⟨by decide, by decide, by decide⟩

/-- C3 (amended): for every NON-EMPTY path `p` that does not end in `'/'`,
registering `p` and registering `p ++ "/"` produce the same router state
(and fail together), and resolution of `p` and of `p ++ "/"` agree for
every method and router state. -/
theorem c3_trailing_slash (p : String) (h0 : p ≠ "")
    (h1 : p.data.getLast? ≠ some '/') :
    (∀ m hdl r, (Router.set_handler_for_path r m p hdl).toOption
        = (Router.set_handler_for_path r m (p ++ "/") hdl).toOption) ∧
    (∀ m r, Router.resolve r m p = Router.resolve r m (p ++ "/")) := by
  have h0' : p.data ≠ [] := by
    intro hd
    exact h0 (String.ext (by rw [hd]))
  have hsp := split_path_append_slash p h0' h1
  constructor
  · intro m hdl r
    show (set_handler_for_parts p m hdl (split_path p) r).toOption
        = (set_handler_for_parts (p ++ "/") m hdl (split_path (p ++ "/")) r).toOption
    rw [hsp]
    exact set_parts_toOption (split_path p) p (p ++ "/") m hdl r
  · intro m r
    show resolveParts m (split_path p) r []
        = resolveParts m (split_path (p ++ "/")) r []
    rw [hsp]

/-- C3 witness: `/a/x` and `/a/x/` resolve identically against `/a/$`. -/
theorem c3_trailing_slash_witness :
    ("/a/x" : String) ≠ "" ∧
    ("/a/x" : String).data.getLast? ≠ some '/' ∧
    Router.resolve (registerRoute "GET" "/a/$" "hw" emptyRouter) "GET" "/a/x"
      = Router.resolve (registerRoute "GET" "/a/$" "hw" emptyRouter) "GET"
          ("/a/x" ++ "/") := by
  refine ⟨by decide, by decide, ?_⟩
  exact (c3_trailing_slash "/a/x" (by decide) (by decide)).2 "GET"
    (registerRoute "GET" "/a/$" "hw" emptyRouter)

/-- C4, the claim as stated, is false on two counts: (1) the duplicate
error message is `duplicate path <path>` — identical for a GET/GET and a
POST/POST duplicate of the same pattern, so it does not identify the
method; (2) registering the DIFFERENT pattern `/a/` under the same method
as an existing `/a` registration also fails, because both split to the
same segments. -/
theorem c4_claim_counterexample :
    ((registerRoute "GET" "/a" "h1" emptyRouter).set_handler_for_path
        "GET" "/a" "h2" = .error "duplicate path /a") ∧
    ((registerRoute "POST" "/a" "h1" emptyRouter).set_handler_for_path
        "POST" "/a" "h2" = .error "duplicate path /a") ∧
    ((registerRoute "GET" "/a" "h1" emptyRouter).set_handler_for_path
        "GET" "/a/" "h2" = .error "duplicate path /a/") ∧
    ("/a/" : String) ≠ "/a" := by
  refine ⟨rfl, rfl, rfl, by decide⟩

/-- C4 (amended): after a successful registration of (method, pattern),
registering any pattern with the same segment split under the same method
fails with the error `duplicate path <pattern>` (identifying the pattern,
not the method); and starting from a single registration into the empty
router, any registration that differs in method or in segment split
succeeds. -/
theorem c4_duplicate_detection (m p h m2 p2 h2 : String) (r r' : Router)
    (hreg : r.set_handler_for_path m p h = .ok r') :
    (split_path p2 = split_path p →
      r'.set_handler_for_path m p2 h2 = .error ("duplicate path " ++ p2)) ∧
    (r = emptyRouter → ¬(m2 = m ∧ split_path p2 = split_path p) →
      ∃ r'', r'.set_handler_for_path m2 p2 h2 = .ok r'') := by
  constructor
  · intro hsp
    show set_handler_for_parts p2 m h2 (split_path p2) r'
        = .error ("duplicate path " ++ p2)
    rw [hsp]
    exact set_parts_dup (split_path p) r r' p p2 m h h2 hreg
  · intro hre hnand
    subst hre
    have hchain : r' = chainTrie "root" (split_path p) m h := by
      have hse := set_parts_empty (split_path p) "root" m h p
      have hreg' : set_handler_for_parts p m h (split_path p)
          (Router.mk "root" [] []) = .ok r' := hreg
      rw [hse] at hreg'
      exact (Except.ok.inj hreg').symm
    have hne : split_path p2 ≠ split_path p ∨ m2 ≠ m := by
      by_cases hm : m2 = m
      · exact Or.inl (fun hsp => hnand ⟨hm, hsp⟩)
      · exact Or.inr hm
    obtain ⟨r'', hr''⟩ :=
      set_into_chain_ok (split_path p2) (split_path p) "root" m m2 h h2 p2 hne
    refine ⟨r'', ?_⟩
    show set_handler_for_parts p2 m2 h2 (split_path p2) r' = .ok r''
    rw [hchain]
    exact hr''

/-- C4 witness: re-registering `/a/` (same split as `/a`) under the same
method hits the duplicate error. -/
theorem c4_duplicate_detection_witness :
    (emptyRouter.set_handler_for_path "GET" "/a" "h1"
      = .ok (registerRoute "GET" "/a" "h1" emptyRouter)) ∧
    split_path "/a/" = split_path "/a" ∧
    ((registerRoute "GET" "/a" "h1" emptyRouter).set_handler_for_path
        "GET" "/a/" "h2" = .error ("duplicate path " ++ "/a/")) := by
  refine ⟨rfl, by decide, ?_⟩
  exact (c4_duplicate_detection "GET" "/a" "h1" "GET" "/a/" "h2"
    emptyRouter (registerRoute "GET" "/a" "h1" emptyRouter) rfl).1 (by decide)

/-- C5: resolution never mutates the router.  The instrumented resolver —
which threads the tree through every dict operation `resolve` performs
(`in` and `.get`, which never trigger the vivifying `__missing__`) and
writes every visited child back into its parent — returns the tree
unchanged for every router state, method and path, while computing the
same result as `resolve`. -/
theorem c5_resolve_no_mutation (r : Router) (m path : String) :
    (r.resolveM m path).2 = r ∧ (r.resolveM m path).1 = r.resolve m path := by
  have hst := resolveSt_eq (split_path path) m r []
  constructor
  · show (resolveSt m (split_path path) r []).2 = r
    rw [hst]
  · show (resolveSt m (split_path path) r []).1
        = resolveParts m (split_path path) r []
    rw [hst]

/-- C6: whenever the signature bind of the resolved handler fails (unknown
query key with no catch-all, missing required parameter, arity mismatch —
every `TypeError` from `Signature.bind`), the request yields status 400
and the handler body is never invoked. -/
theorem c6_binding_failure_bad_request (r : Router) (sigOf : String → Sig)
    (run : String → List (String × Val) → Except String String)
    (m p : String) (query : List (String × String))
    (h : String) (args : List String) (e : String)
    (hres : r.resolve m p = some (h, args))
    (hbind : (sigOf h).bindCall
        ([Val.message, Val.payload] ++ args.map Val.str)
        (query.map fun kv => (kv.1, Val.str kv.2)) = .error e) :
    handle_request r sigOf run m p query = ⟨400, 0⟩ := by
  have hbind' : (sigOf h).bindCall
      (Val.message :: Val.payload :: args.map Val.str)
      (query.map fun kv => (kv.1, Val.str kv.2)) = .error e := by
    simpa using hbind
  simp [handle_request, hres, hbind']

/-- C6 witness: a parameterless handler given `?test=testing` (the spec's
scenario 3) is rejected with 400 and zero invocations. -/
theorem c6_binding_failure_bad_request_witness :
    demoRouterFoo.resolve "GET" "/foo" = some ("foo", []) ∧
    demoSigNoParams.bindCall
        ([Val.message, Val.payload] ++ ([] : List String).map Val.str)
        ([("test", "testing")].map fun kv => (kv.1, Val.str kv.2))
      = .error "got an unexpected keyword argument test" ∧
    handle_request demoRouterFoo (fun _ => demoSigNoParams) demoRunOk
      "GET" "/foo" [("test", "testing")] = ⟨400, 0⟩ := by
  refine ⟨rfl, rfl, ?_⟩
  exact c6_binding_failure_bad_request demoRouterFoo
    (fun _ => demoSigNoParams) demoRunOk "GET" "/foo" [("test", "testing")]
    "foo" [] "got an unexpected keyword argument test" rfl rfl

/-- C7, the claim as stated, is false: the success path (`_send_data`)
sets `Content-Type: application/json` WITHOUT the `charset=utf-8`
parameter; only the error path sets
`Content-Type: application/json; charset=utf-8`. -/
theorem c7_claim_counterexample :
    alookup (send_data "null").headers "Content-Type"
      = some "application/json" ∧
    ("application/json" : String) ≠ "application/json; charset=utf-8" := by
  refine ⟨rfl, by decide⟩

/-- C7 (amended): every response carries a `Content-Length` equal to the
exact UTF-8 byte length of its body; error responses carry
`Content-Type: application/json; charset=utf-8`, while success responses
carry `Content-Type: application/json` (without the charset parameter). -/
theorem c7_response_headers :
    (∀ s : String,
      alookup (send_data s).headers "Content-Type"
          = some "application/json" ∧
      alookup (send_data s).headers "Content-Length"
          = some (toString (send_data s).body.utf8ByteSize)) ∧
    (∀ (status : Nat) (dbg exc : Bool) (msg : String)
        (extra : List (String × String)),
      alookup (handle_error status dbg exc msg extra).headers "Content-Type"
          = some "application/json; charset=utf-8" ∧
      alookup (handle_error status dbg exc msg extra).headers "Content-Length"
          = some (toString
              (handle_error status dbg exc msg extra).body.utf8ByteSize)) := by
  constructor
  · intro s
    constructor <;> simp [send_data, alookup]
  · intro status dbg exc msg extra
    constructor <;> simp [handle_error, alookup]

/-- C8: when the bind succeeds and the handler body itself raises (for
example a `TypeError` from inside the handler), the failure is not treated
as a binding failure: the single response has status 500 — not 400 — and
the handler ran exactly once. -/
theorem c8_handler_error_500 (r : Router) (sigOf : String → Sig)
    (run : String → List (String × Val) → Except String String)
    (m p : String) (query : List (String × String))
    (h : String) (args : List String) (bound : List (String × Val))
    (exc : String)
    (hres : r.resolve m p = some (h, args))
    (hbind : (sigOf h).bindCall
        ([Val.message, Val.payload] ++ args.map Val.str)
        (query.map fun kv => (kv.1, Val.str kv.2)) = .ok bound)
    (hrun : run h bound = .error exc) :
    handle_request r sigOf run m p query = ⟨500, 1⟩ := by
  have hbind' : (sigOf h).bindCall
      (Val.message :: Val.payload :: args.map Val.str)
      (query.map fun kv => (kv.1, Val.str kv.2)) = .ok bound := by
    simpa using hbind
  simp [handle_request, hres, hbind', hrun]

/-- C8 witness: a handler that raises a `TypeError` during execution is
reported as 500 (not 400) after exactly one invocation. -/
theorem c8_handler_error_500_witness :
    demoRouterFoo.resolve "GET" "/foo" = some ("foo", []) ∧
    demoSigNoParams.bindCall
        ([Val.message, Val.payload] ++ ([] : List String).map Val.str)
        (([] : List (String × String)).map fun kv => (kv.1, Val.str kv.2))
      = .ok [("message", Val.message), ("payload", Val.payload)] ∧
    demoRunRaise "foo" [("message", Val.message), ("payload", Val.payload)]
      = .error "TypeError: unexpected keyword argument badparam" ∧
    handle_request demoRouterFoo (fun _ => demoSigNoParams) demoRunRaise
      "GET" "/foo" [] = ⟨500, 1⟩ := by
  refine ⟨rfl, rfl, rfl, ?_⟩
  exact c8_handler_error_500 demoRouterFoo (fun _ => demoSigNoParams)
    demoRunRaise "GET" "/foo" [] "foo" []
    [("message", Val.message), ("payload", Val.payload)]
    "TypeError: unexpected keyword argument badparam" rfl rfl rfl

/-- C9: a wildcard child also matches an empty path segment — the
resolution step on an empty segment with no literal `""` child but a `'$'`
child captures the empty string; concretely, with `/a/$/b` registered,
`/a//b` resolves and captures `""`. -/
theorem c9_wildcard_empty_segment (r c : Router) (m : String)
    (ps acc : List String)
    (h0 : alookup r.children "" = none)
    (h1 : alookup r.children "$" = some c) :
    resolveParts m ("" :: ps) r acc = resolveParts m ps c (acc ++ [""]) ∧
    (registerRoute "GET" "/a/$/b" "h" emptyRouter).resolve "GET" "/a//b"
      = some ("h", [""]) := by
  constructor
  · simp [resolveParts, h0, h1]
  · decide

/-- C9 witness: the empty-segment wildcard step at a concrete node. -/
theorem c9_wildcard_empty_segment_witness :
    alookup (Router.mk "x" [("$", emptyRouter)] []).children "" = none ∧
    alookup (Router.mk "x" [("$", emptyRouter)] []).children "$"
      = some emptyRouter ∧
    resolveParts "GET" [""] (Router.mk "x" [("$", emptyRouter)] []) []
      = resolveParts "GET" [] emptyRouter ([] ++ [""]) := by
  refine ⟨rfl, rfl, ?_⟩
  exact (c9_wildcard_empty_segment (Router.mk "x" [("$", emptyRouter)] [])
    emptyRouter "GET" [] [] rfl rfl).1

/-- C10: a query parameter whose name equals a declared parameter that is
already filled positionally (by a transport argument or a captured path
argument) makes the bind fail with `multiple values`, so the request
yields 400 and the handler is never invoked, even though the name is
declared. -/
theorem c10_shadowed_query_param (r : Router) (sigOf : String → Sig)
    (run : String → List (String × Val) → Except String String)
    (m p : String) (query : List (String × String))
    (h : String) (args : List String) (j : Nat) (pj : Param)
    (hres : r.resolve m p = some (h, args))
    (hj : j < 2 + args.length)
    (hp : (sigOf h).params[j]? = some pj)
    (hq : (alookup (query.map fun kv => (kv.1, Val.str kv.2)) pj.name).isSome) :
    handle_request r sigOf run m p query = ⟨400, 0⟩ := by
  have hlen : j < ([Val.message, Val.payload] ++ args.map Val.str).length := by
    simp only [List.length_append, List.length_map, List.length_cons,
      List.length_nil]
    omega
  obtain ⟨e, he⟩ := bindPos_conflict j (sigOf h).params
    ([Val.message, Val.payload] ++ args.map Val.str)
    (query.map fun kv => (kv.1, Val.str kv.2)) [] pj hlen hp hq
  have hb := bindCall_error_of_bindPos (sigOf h)
    ([Val.message, Val.payload] ++ args.map Val.str)
    (query.map fun kv => (kv.1, Val.str kv.2)) e he
  have hb' : (sigOf h).bindCall
      (Val.message :: Val.payload :: args.map Val.str)
      (query.map fun kv => (kv.1, Val.str kv.2)) = .error e := by
    simpa using hb
  simp [handle_request, hres, hb']

/-- C10 witness: `GET /items/x?item=y` against a handler
`(message, payload, item)` — `item` is filled by the captured segment, so
the query key `item` is rejected with 400 and no invocation. -/
theorem c10_shadowed_query_param_witness :
    demoRouterItems.resolve "GET" "/items/x" = some ("get_item", ["x"]) ∧
    (2 : Nat) < 2 + (["x"] : List String).length ∧
    demoSigItem.params[2]? = some ⟨"item", none⟩ ∧
    (alookup ([("item", "y")].map fun kv => (kv.1, Val.str kv.2))
      (Param.mk "item" none).name).isSome ∧
    handle_request demoRouterItems (fun _ => demoSigItem) demoRunOk
      "GET" "/items/x" [("item", "y")] = ⟨400, 0⟩ := by
  refine ⟨rfl, by decide, rfl, rfl, ?_⟩
  exact c10_shadowed_query_param demoRouterItems (fun _ => demoSigItem)
    demoRunOk "GET" "/items/x" [("item", "y")] "get_item" ["x"] 2
    ⟨"item", none⟩ rfl (by decide) rfl rfl

end AioRest
